import Mathlib

/-!
Verification development for the keyshare server account/PIN layer and the
account-console (myirma) server of this repository.

The Go code is shallowly embedded: the relational database state becomes an
explicit record of lists of rows, each SQL statement becomes a pure function
on that state that mirrors the statement's WHERE / SET / RETURNING clauses,
and the `database/sql` affected-row counts become explicit list lengths.
Timestamps (`time.Now().Unix()`) are passed in as an explicit `now : Int`
parameter.  Database connectivity failures are not modelled; the error kinds
that the code itself produces (`ErrUserNotFound`, `ErrTokenNotFound`, ...)
are modelled by the `KeyshareErr` type, with `dbError` standing for an error
bubbled up from the driver (never produced by the model itself, but handled
by code that branches on errors of the database interface).
-/

/-- Error kinds of the database layer: `keyshare.ErrUserNotFound`,
`keyshareserver.ErrUserAlreadyExists`, `keyshareserver.ErrInvalidRecord`,
`myirmaserver.ErrTokenNotFound`, `myirmaserver.ErrEmailNotFound`, the
`errors.Errorf("Unexpected number of affected rows ...")` errors, and a
driver-level error carrying a message. -/
inductive KeyshareErr where
  | userNotFound
  | userAlreadyExists
  | invalidRecord
  | tokenNotFound
  | emailNotFound
  | unexpectedAffectedRows (n : Nat)
  | dbError (msg : String)
deriving DecidableEq, Repr

/-- The message carried by an error value (Go `err.Error()`). -/
def KeyshareErr.message : KeyshareErr → String
  | .userNotFound => "Could not find specified user"
  | .userAlreadyExists => "user already exists"
  | .invalidRecord => "Invalid record in database"
  | .tokenNotFound => "Token not found"
  | .emailNotFound => "Email address not found"
  | .unexpectedAffectedRows _ => "Unexpected number of affected rows"
  | .dbError msg => msg

/-- A row of `irma.users`: id PK, username, language, coredata (NULL means
soft-deleted), last_seen, pin_counter, pin_block_date, delete_on. -/
structure UserRow where
  id : Int
  username : String
  language : String
  coredata : Option (List Nat)
  lastSeen : Int
  pinCounter : Int
  pinBlockDate : Int
  deleteOn : Option Int
deriving DecidableEq, Repr

/-- A row of `irma.emails`: user_id FK, email, delete_on (NULL = active). -/
structure EmailRow where
  userId : Int
  email : String
  deleteOn : Option Int
deriving DecidableEq, Repr

/-- A row of `irma.email_verification_tokens`. -/
structure VerificationTokenRow where
  token : String
  email : String
  userId : Int
  expiry : Int
deriving DecidableEq, Repr

/-- A row of `irma.email_login_tokens`. -/
structure LoginTokenRow where
  token : String
  email : String
  expiry : Int
deriving DecidableEq, Repr

/-- A row of `irma.log_entry_records`. -/
structure LogRow where
  userId : Int
  time : Int
  event : Int
  param : Option String
deriving DecidableEq, Repr

/-- The whole database state. -/
structure DBState where
  users : List UserRow
  emails : List EmailRow
  verificationTokens : List VerificationTokenRow
  loginTokens : List LoginTokenRow
  logs : List LogRow
deriving DecidableEq, Repr

/-- `keyshareserver.MAX_PIN_TRIES`: number of tries allowed on pin before
exponential backoff starts. -/
def MAX_PIN_TRIES : Int := 3

/-- `keyshareserver.BACKOFF_START`: initial backoff in seconds. -/
def BACKOFF_START : Int := 30

/-- Modelled from the spec: `coredata` is an opaque fixed-length byte blob;
the concrete length (defined by the keysharecore package, outside the given
sources) is abstracted to 1 here.  Only equality of the scanned blob length
with this expected length matters to the code under study. -/
def COREDATA_LENGTH : Nat := 1

/-- The WHERE clause of the conditional UPDATE inside `ReservePincheck`:
`id=$4 AND pin_block_date<=$5 AND coredata IS NOT NULL` (with `$5 = now`). -/
def pinCheckPred (uid now : Int) (r : UserRow) : Bool :=
  r.id == uid && decide (r.pinBlockDate ≤ now) && r.coredata.isSome

/-- The SET clause of the conditional UPDATE inside `ReservePincheck`:
`pin_counter = pin_counter+1,
 pin_block_date = $1+$2*2^GREATEST(0, pin_counter-$3)` with
`$1 = now-1-BACKOFF_START`, `$2 = BACKOFF_START`, `$3 = MAX_PIN_TRIES-2`.
Both right-hand sides read the pre-update `pin_counter` (SQL semantics). -/
def pinUpdateRow (now : Int) (r : UserRow) : UserRow :=
  { r with
    pinCounter := r.pinCounter + 1,
    pinBlockDate :=
      (now - 1 - BACKOFF_START) +
        BACKOFF_START * 2 ^ (max 0 (r.pinCounter - (MAX_PIN_TRIES - 2))).toNat }

/-- `keysharePostgresDatabase.ReservePincheck`: one conditional
`UPDATE ... RETURNING pin_counter, pin_block_date`; if a row comes back the
check is allowed and `(true, max 0 (MAX_PIN_TRIES - new_counter),
max 0 (new_block_date - now))` is returned; otherwise a fallback
`SELECT pin_block_date ... WHERE id=$1 AND coredata IS NOT NULL` yields
either `ErrUserNotFound` (no row) or `(false, 0, max 0 (block_date - now))`. -/
def ReservePincheck (db : DBState) (uid now : Int) :
    DBState × Except KeyshareErr (Bool × Int × Int) :=
  let updated := db.users.map fun r =>
    if pinCheckPred uid now r then pinUpdateRow now r else r
  let returning := (db.users.filter (pinCheckPred uid now)).map (pinUpdateRow now)
  let db' := { db with users := updated }
  match returning with
  | row :: _ =>
      (db', .ok (true, max 0 (MAX_PIN_TRIES - row.pinCounter),
                 max 0 (row.pinBlockDate - now)))
  | [] =>
      match db.users.find? (fun r => r.id == uid && r.coredata.isSome) with
      | none => (db', .error .userNotFound)
      | some r => (db', .ok (false, 0, max 0 (r.pinBlockDate - now)))

/-- `keysharePostgresDatabase.ClearPincheck`:
`UPDATE irma.users SET pin_counter=0, pin_block_date=0 WHERE id=$1`;
zero affected rows is `ErrUserNotFound`. -/
def ClearPincheck (db : DBState) (uid : Int) :
    DBState × Except KeyshareErr Unit :=
  let aff := (db.users.filter (fun r => r.id == uid)).length
  let db' := { db with users := db.users.map fun r =>
    if r.id == uid then { r with pinCounter := 0, pinBlockDate := 0 } else r }
  (db', if aff == 0 then .error .userNotFound else .ok ())

/-- `keysharePostgresDatabase.User`:
`SELECT id, username, language, coredata FROM irma.users
 WHERE username = $1 AND coredata IS NOT NULL`; no row is `ErrUserNotFound`;
a scanned blob of unexpected length is `ErrInvalidRecord`. -/
def User (db : DBState) (username : String) : Except KeyshareErr UserRow :=
  match db.users.find? (fun r => r.username == username && r.coredata.isSome) with
  | none => .error .userNotFound
  | some r =>
      if (r.coredata.getD []).length ≠ COREDATA_LENGTH then .error .invalidRecord
      else .ok r

/-- `myirmaPostgresDB.UserID`:
`SELECT id FROM irma.users WHERE username = $1` via `QueryUser`
(no row maps to `keyshare.ErrUserNotFound`).  Note: no `coredata` filter. -/
def UserID (db : DBState) (username : String) : Except KeyshareErr Int :=
  match db.users.find? (fun r => r.username == username) with
  | none => .error .userNotFound
  | some r => .ok r.id

/-- `myirmaPostgresDB.RemoveUser`:
`UPDATE irma.users SET coredata = NULL, delete_on = $2
 WHERE id = $1 AND coredata IS NOT NULL` via `ExecUser`
(affected rows ≠ 1 maps to `keyshare.ErrUserNotFound`); the Go code passes
`time.Now().Add(delay).Unix()`, modelled here as `now + delay`. -/
def RemoveUser (db : DBState) (uid now delay : Int) :
    DBState × Except KeyshareErr Unit :=
  let pred := fun (r : UserRow) => r.id == uid && r.coredata.isSome
  let aff := (db.users.filter pred).length
  let db' := { db with users := db.users.map fun r =>
    if (pred r) then { r with coredata := none, deleteOn := some (now + delay) } else r }
  (db', if aff == 1 then .ok () else .error .userNotFound)

/-- `myirmaPostgresDB.SetSeen`:
`UPDATE irma.users SET last_seen = $1 WHERE id = $2` via `ExecUser`. -/
def SetSeen (db : DBState) (uid now : Int) :
    DBState × Except KeyshareErr Unit :=
  let aff := (db.users.filter (fun r => r.id == uid)).length
  let db' := { db with users := db.users.map fun r =>
    if r.id == uid then { r with lastSeen := now } else r }
  (db', if aff == 1 then .ok () else .error .userNotFound)

/-- WHERE clause of the restore UPDATE inside `AddEmail`:
`user_id = $1 AND email = $2`. -/
def emailPred (uid : Int) (email : String) (r : EmailRow) : Bool :=
  r.userId == uid && r.email == email

/-- `myirmaPostgresDB.AddEmail`: first
`UPDATE irma.emails SET delete_on = NULL WHERE user_id = $1 AND email = $2`;
if that affected exactly one row, done; otherwise fall back to
`INSERT INTO irma.emails (user_id, email) VALUES ($1, $2)` (delete_on takes
its NULL column default). -/
def AddEmail (db : DBState) (uid : Int) (email : String) :
    DBState × Except KeyshareErr Unit :=
  let restored := db.emails.map fun r =>
    if emailPred uid email r then { r with deleteOn := none } else r
  if (db.emails.filter (emailPred uid email)).length == 1 then
    ({ db with emails := restored }, .ok ())
  else
    ({ db with emails := restored ++ [⟨uid, email, none⟩] }, .ok ())

/-- `myirmaPostgresDB.RemoveEmail`:
`UPDATE irma.emails SET delete_on = $3
 WHERE user_id = $1 AND email = $2 AND delete_on IS NULL`;
affected rows ≠ 1 is a hard error; the Go code passes
`time.Now().Add(delay).Unix()`, modelled here as `now + delay`. -/
def RemoveEmail (db : DBState) (uid : Int) (email : String) (now delay : Int) :
    DBState × Except KeyshareErr Unit :=
  let pred := fun (r : EmailRow) => emailPred uid email r && r.deleteOn.isNone
  let aff := (db.emails.filter pred).length
  let db' := { db with emails := db.emails.map fun r =>
    if (pred r) then { r with deleteOn := some (now + delay) } else r }
  (db', if aff == 1 then .ok () else .error (.unexpectedAffectedRows aff))

/-- WHERE clause of the token select inside `VerifyEmailToken`:
`token = $1 AND expiry >= $2` (with `$2 = now`). -/
def verificationTokenPred (token : String) (now : Int) (r : VerificationTokenRow) : Bool :=
  r.token == token && decide (r.expiry ≥ now)

/-- `myirmaPostgresDB.VerifyEmailToken`: select `(user_id, email)` of the
unexpired token (`sql.ErrNoRows` maps to `ErrTokenNotFound`); then
`AddEmail(user_id, email)`; then
`DELETE FROM irma.email_verification_tokens WHERE token = $1` — beyond the
`AddEmail`, delete problems (error or affected rows ≠ 1) are only logged and
the user id is still returned with success. -/
def VerifyEmailToken (db : DBState) (token : String) (now : Int) :
    DBState × Except KeyshareErr Int :=
  match db.verificationTokens.find? (verificationTokenPred token now) with
  | none => (db, .error .tokenNotFound)
  | some r =>
      match AddEmail db r.userId r.email with
      | (db1, .error e) => (db1, .error e)
      | (db1, .ok _) =>
          let db2 := { db1 with verificationTokens :=
            db1.verificationTokens.filter (fun t => !(t.token == token)) }
          (db2, .ok r.userId)

/-- The WHERE clause of the join inside `TryUserLoginToken`: the candidate
ids are those of user rows named `username` joined against an active email
row whose address equals that of the unexpired login token `token`.
(`email = (SELECT ...)` over an empty subquery matches no row.) -/
def loginCandidateIds (db : DBState) (token username : String) (now : Int) : List Int :=
  match db.loginTokens.find? (fun t => t.token == token && decide (t.expiry ≥ now)) with
  | none => []
  | some tk =>
      (db.users.filter (fun u => u.username == username)).flatMap fun u =>
        (db.emails.filter fun e =>
            e.userId == u.id &&
            (match e.deleteOn with
             | none => true
             | some d => decide (d ≥ now)) &&
            e.email == tk.email).map (fun _ => u.id)

/-- `myirmaPostgresDB.TryUserLoginToken`: the join select via `QueryUser`
(no row maps to `keyshare.ErrUserNotFound`); then
`DELETE FROM irma.email_login_tokens WHERE token = $1`, treating affected
rows ≠ 1 as a hard error. -/
def TryUserLoginToken (db : DBState) (token username : String) (now : Int) :
    DBState × Except KeyshareErr Int :=
  match loginCandidateIds db token username now with
  | [] => (db, .error .userNotFound)
  | id :: _ =>
      let aff := (db.loginTokens.filter (fun t => t.token == token)).length
      let db' := { db with loginTokens :=
        db.loginTokens.filter (fun t => !(t.token == token)) }
      (db', if aff == 1 then .ok id else .error (.unexpectedAffectedRows aff))

/-- An active email row of `irma.emails` as returned by `UserInformation`:
`(email, delete_on IS NOT NULL)`. -/
structure UserEmail where
  email : String
  deleteInProgress : Bool
deriving DecidableEq, Repr

/-- `myirmaserver.UserInformation`: username, language,
`delete_in_progress` (`coredata IS NULL`), and the list of active emails.
A Go nil slice (no email row scanned) is modelled as `none`; a non-empty
scanned slice as `some`. -/
structure UserInfoResult where
  username : String
  language : String
  deleteInProgress : Bool
  emails : Option (List UserEmail)
deriving DecidableEq, Repr

/-- `myirmaPostgresDB.UserInformation`: one select on `irma.users` by id
(via `QueryUser`), then
`SELECT email, (delete_on IS NOT NULL) FROM irma.emails
 WHERE user_id = $1 AND (delete_on >= $2 OR delete_on IS NULL)`
iterated with `append` into an initially-nil Go slice. -/
def UserInformation (db : DBState) (uid now : Int) :
    Except KeyshareErr UserInfoResult :=
  match db.users.find? (fun r => r.id == uid) with
  | none => .error .userNotFound
  | some u =>
      let rows := (db.emails.filter fun e =>
          e.userId == uid &&
          (match e.deleteOn with
           | none => true
           | some d => decide (d ≥ now))).map
        (fun e => UserEmail.mk e.email e.deleteOn.isSome)
      .ok { username := u.username, language := u.language,
            deleteInProgress := u.coredata.isNone,
            emails := if rows.isEmpty then none else some rows }

/-- A log entry as returned by `Logs`. -/
structure LogEntry where
  timestamp : Int
  event : Int
  param : Option String
deriving DecidableEq, Repr

/-- Insertion step for `ORDER BY time DESC`. -/
def insertByTimeDesc (e : LogRow) : List LogRow → List LogRow
  | [] => [e]
  | x :: xs => if e.time ≥ x.time then e :: x :: xs else x :: insertByTimeDesc e xs

/-- `ORDER BY time DESC` on log rows (insertion sort; stability is not
relied upon by any claim). -/
def sortByTimeDesc : List LogRow → List LogRow
  | [] => []
  | x :: xs => insertByTimeDesc x (sortByTimeDesc xs)

/-- `myirmaPostgresDB.Logs`:
`SELECT time, event, param FROM irma.log_entry_records WHERE user_id = $1
 ORDER BY time DESC OFFSET $2 LIMIT $3` iterated with `append` into an
initially-nil Go slice; nil (no row) is modelled as `none`. -/
def Logs (db : DBState) (uid : Int) (offset amount : Nat) :
    Option (List LogEntry) :=
  let rows := (((sortByTimeDesc (db.logs.filter (fun l => l.userId == uid))).drop
      offset).take amount).map (fun l => LogEntry.mk l.time l.event l.param)
  if rows.isEmpty then none else some rows

/-- The `server.Error` kinds that the myirma server hands to `WriteError`. -/
inductive ServerError where
  | invalidProofs
  | userNotRegistered
  | internal
  | invalidRequest
deriving DecidableEq, Repr

/-- `myirmaserver.Sessiondata`: cookie token, nullable user id, pending
error slot with message, and expiry.  The mutex is not part of the data. -/
structure Sessiondata where
  token : String
  userID : Option Int
  pendingError : Option ServerError
  pendingErrorMessage : String
  expiry : Int
deriving DecidableEq, Repr

/-- What `handleCheckSession` writes to the response: either a JSON string
(`"expired"` / `"ok"`, via `server.WriteString`) or an error
(via `server.WriteError`). -/
inductive CheckResponse where
  | msg (s : String)
  | err (e : ServerError) (message : String)
deriving DecidableEq, Repr

/-- `Server.handleCheckSession`.  The input is the result of
`sessionFromCookie` (`none` when the cookie is missing or the store has no
unexpired session).  The output pairs the session as left behind with the
written response.  Mirrors the source exactly: the first guard returns
`"expired"` whenever the session is absent *or* `userID` is nil, and only
past that guard is `pendingError` consulted (and cleared). -/
def handleCheckSession (sess : Option Sessiondata) :
    Option Sessiondata × CheckResponse :=
  match sess with
  | none => (none, .msg "expired")
  | some session =>
      if session.userID.isNone then (some session, .msg "expired")
      else
        match session.pendingError with
        | some e =>
            (some { session with pendingError := none, pendingErrorMessage := "" },
             .err e session.pendingErrorMessage)
        | none =>
            if session.userID.isNone then (some session, .msg "expired")
            else (some session, .msg "ok")

/-- `server.Status` of an IRMA session result (modelled from its use in
`server.go`: only equality with `StatusDone` is inspected). -/
inductive SessionStatus where
  | initialized
  | connected
  | cancelled
  | done
  | timeout
deriving DecidableEq, Repr

/-- `irma.ProofStatus` (modelled from its use in `server.go`: only equality
with `ProofStatusValid` is inspected). -/
inductive ProofStatus where
  | valid
  | invalid
  | expiredProof
deriving DecidableEq, Repr

/-- The part of `server.SessionResult` that
`processLoginIrmaSessionResult` reads: status, proof status, and the
disclosed attributes (`result.Disclosed[0][0].RawValue`, a string). -/
structure SessionResult where
  status : SessionStatus
  proofStatus : ProofStatus
  disclosed : List (List String)
deriving DecidableEq, Repr

/-- `Server.processLoginIrmaSessionResult`.  `sess` is the result of
`store.get(sessiontoken)` (`none` when the session expired during the IRMA
session); `lookup` is the value returned by `s.db.UserID(username)` over
the `MyirmaDB` interface (for the postgres backend and username
`(result.disclosed.headD []).headD ""` this is
`UserID db ((result.disclosed.headD []).headD "")`, but the interface may
also surface a driver error, hence the extra parameter).  The output pairs
the database state (changed only by `SetSeen` on success) with the session
as left behind. -/
def processLoginIrmaSessionResult (db : DBState) (sess : Option Sessiondata)
    (result : SessionResult) (lookup : Except KeyshareErr Int) (now : Int) :
    DBState × Option Sessiondata :=
  match sess with
  | none => (db, none)
  | some session =>
      if result.status ≠ SessionStatus.done then (db, some session)
      else if result.proofStatus ≠ ProofStatus.valid then
        (db, some { session with
              pendingError := some ServerError.invalidProofs,
              pendingErrorMessage := "" })
      else
        match lookup with
        | .error KeyshareErr.userNotFound =>
            (db, some { session with
                  pendingError := some ServerError.userNotRegistered,
                  pendingErrorMessage := "" })
        | .error e =>
            (db, some { session with
                  pendingError := some ServerError.internal,
                  pendingErrorMessage := e.message })
        | .ok id =>
            ((SetSeen db id now).1, some { session with userID := some id })

/-- `Server.handleUserInfo`, from the db fetch to the serialised body:
on success the handler replaces a nil `Emails` slice by the empty slice
(`if userinfo.Emails == nil { userinfo.Emails = []UserEmail{} }`) before
`WriteJson`.  `none` in the `emails` field would serialise as JSON null. -/
def handleUserInfo (db : DBState) (uid now : Int) :
    Except ServerError UserInfoResult :=
  match UserInformation db uid now with
  | .error _ => .error ServerError.internal
  | .ok info =>
      match info.emails with
      | none => .ok { info with emails := some [] }
      | some _ => .ok info

/-- `Server.handleGetLogs`, from the db fetch to the serialised body: the
handler queries `Logs` with page size 11 and replaces a nil slice by the
empty slice (`if entries == nil { entries = []LogEntry{} }`) before
`WriteJson`.  `none` would serialise as JSON null. -/
def handleGetLogs (db : DBState) (uid : Int) (offset : Nat) :
    Option (List LogEntry) :=
  match Logs db uid offset 11 with
  | none => some []
  | some l => some l

/-- Which handle a SQL statement is executed on: the `*sql.Tx` passed into
the method, or the plain `*sql.DB` connection (a Go `nil` tx argument to
`ExecCount`/`QueryScan`/`QueryUser`). -/
inductive TxHandle where
  | passedTx
  | nilConn
deriving DecidableEq, Repr

/-- The statements issued by `VerifyEmailToken` / `TryUserLoginToken` and
the `AddEmail` they call into. -/
inductive SqlStmt where
  | selectVerificationToken
  | updateEmailsRestoreDeleteOn
  | insertEmailRow
  | deleteVerificationToken
  | selectLoginCandidate
  | deleteLoginToken
deriving DecidableEq, Repr

/-- One issued statement with the handle it ran on. -/
structure SqlOp where
  stmt : SqlStmt
  handle : TxHandle
deriving DecidableEq, Repr

/-- The statements `myirmaPostgresDB.AddEmail` issues: both its
`ExecCount` calls pass `nil` as the transaction, so both statements run on
the plain connection. -/
def addEmailOps (db : DBState) (uid : Int) (email : String) : List SqlOp :=
  if (db.emails.filter (emailPred uid email)).length == 1 then
    [⟨.updateEmailsRestoreDeleteOn, .nilConn⟩]
  else
    [⟨.updateEmailsRestoreDeleteOn, .nilConn⟩, ⟨.insertEmailRow, .nilConn⟩]

/-- The statements `myirmaPostgresDB.VerifyEmailToken` issues, in order:
the token select and the token delete through `tx.(*sql.Tx)`, and in
between the statements of the `AddEmail(id, email)` call. -/
def verifyEmailTokenOps (db : DBState) (token : String) (now : Int) : List SqlOp :=
  SqlOp.mk .selectVerificationToken .passedTx ::
    match db.verificationTokens.find? (verificationTokenPred token now) with
    | none => []
    | some r => addEmailOps db r.userId r.email ++
        [⟨.deleteVerificationToken, .passedTx⟩]

/-- The statements `myirmaPostgresDB.TryUserLoginToken` issues, in order:
the join select and the token delete, both through `tx.(*sql.Tx)`. -/
def tryUserLoginTokenOps (db : DBState) (token username : String) (now : Int) :
    List SqlOp :=
  SqlOp.mk .selectLoginCandidate .passedTx ::
    match loginCandidateIds db token username now with
    | [] => []
    | _ :: _ => [⟨.deleteLoginToken, .passedTx⟩]

deriving instance DecidableEq for Except

/-- `AddEmail` always reports success (its only error source is the
database driver, which is not modelled). -/
theorem addEmail_snd (db : DBState) (uid : Int) (email : String) :
    (AddEmail db uid email).2 = .ok () := by
  unfold AddEmail
  split <;> rfl

/-- `AddEmail` only touches the `emails` table. -/
theorem addEmail_verificationTokens (db : DBState) (uid : Int) (email : String) :
    (AddEmail db uid email).1.verificationTokens = db.verificationTokens := by
  unfold AddEmail
  split <;> rfl

/-- The user of lockout scenario S1 (counter 0, not blocked, not deleted). -/
def s1user : UserRow :=
  { id := 1, username := "u", language := "", coredata := some [0],
    lastSeen := 0, pinCounter := 0, pinBlockDate := 0, deleteOn := none }

/-- Initial database of scenario S1. -/
def s1db0 : DBState :=
  { users := [s1user], emails := [], verificationTokens := [],
    loginTokens := [], logs := [] }

/-- S1 after the first `ReservePincheck` at `t = 1000`. -/
def s1db1 : DBState := (ReservePincheck s1db0 1 1000).1

/-- S1 after the second `ReservePincheck` at `t = 1000`. -/
def s1db2 : DBState := (ReservePincheck s1db1 1 1000).1

/-- S1 after the third `ReservePincheck` at `t = 1000`. -/
def s1db3 : DBState := (ReservePincheck s1db2 1 1000).1

/-- S1 after the refused fourth `ReservePincheck` at `t = 1005`. -/
def s1db4 : DBState := (ReservePincheck s1db3 1 1005).1

/-- S1 after `ClearPincheck`. -/
def s1db5 : DBState := (ClearPincheck s1db4 1).1

/-- C1: on an existing user that is not blocked and not soft-deleted (the
unique row matching the conditional UPDATE's WHERE clause), with stored
failure counter `c = u.pinCounter`, `ReservePincheck` sets `pin_counter` to
`c+1` and `pin_block_date` to
`(now − 1 − 30) + 30·2^max(0, c − 1)` (computed from the pre-increment
counter) and returns `allowed = true`, `tries = max 0 (3 − (c+1))` and
`wait = max 0 (new_block_date − now)`; and concretely, starting from
counter 0 at `t = 1000`, three calls return `(true, 2, 0)`, `(true, 1, 0)`,
`(true, 0, 29)` (≈30), a fourth call at `t = 1005` returns `(false, 0, 24)`
(≈25), and after `ClearPincheck` the next call at `t = 1040` returns
`(true, 2, 0)`. -/
theorem reservePincheck_allowed_update_and_lockout_scenario :
    (∀ (db : DBState) (uid now : Int) (u : UserRow),
        db.users.filter (pinCheckPred uid now) = [u] →
        (ReservePincheck db uid now).2 =
          .ok (true, max 0 (MAX_PIN_TRIES - (u.pinCounter + 1)),
               max 0 ((now - 1 - BACKOFF_START) +
                 BACKOFF_START * 2 ^ (max 0 (u.pinCounter - (MAX_PIN_TRIES - 2))).toNat
                 - now)) ∧
        { u with pinCounter := u.pinCounter + 1,
                 pinBlockDate := (now - 1 - BACKOFF_START) +
                   BACKOFF_START * 2 ^ (max 0 (u.pinCounter - (MAX_PIN_TRIES - 2))).toNat }
          ∈ (ReservePincheck db uid now).1.users) ∧
    (ReservePincheck s1db0 1 1000).2 = .ok (true, 2, 0) ∧
    (ReservePincheck s1db1 1 1000).2 = .ok (true, 1, 0) ∧
    (ReservePincheck s1db2 1 1000).2 = .ok (true, 0, 29) ∧
    (ReservePincheck s1db3 1 1005).2 = .ok (false, 0, 24) ∧
    (ReservePincheck s1db5 1 1040).2 = .ok (true, 2, 0) := by
  refine ⟨?_, by decide, by decide, by decide, by decide, by decide⟩
  intro db uid now u h
  have hmem : u ∈ db.users.filter (pinCheckPred uid now) := by
    rw [h]; exact List.mem_singleton_self u
  obtain ⟨humem, hpred⟩ := List.mem_filter.mp hmem
  have hrp : ReservePincheck db uid now =
      ({ db with users := db.users.map fun r =>
          if pinCheckPred uid now r then pinUpdateRow now r else r },
       .ok (true, max 0 (MAX_PIN_TRIES - (pinUpdateRow now u).pinCounter),
            max 0 ((pinUpdateRow now u).pinBlockDate - now))) := by
    simp only [ReservePincheck, h]
    rfl
  have hcnt : (pinUpdateRow now u).pinCounter = u.pinCounter + 1 := rfl
  have hbd : (pinUpdateRow now u).pinBlockDate =
      (now - 1 - BACKOFF_START) +
        BACKOFF_START * 2 ^ (max 0 (u.pinCounter - (MAX_PIN_TRIES - 2))).toNat := rfl
  constructor
  · rw [hrp, ← hcnt, ← hbd]
  · rw [hrp]
    exact List.mem_map.mpr ⟨u, humem, by rw [if_pos hpred]; rfl⟩

/-- Witness for C1: the general part applied to the concrete S1 user. -/
theorem reservePincheck_allowed_witness :
    (ReservePincheck s1db0 1 1000).2 =
      .ok (true, max 0 (MAX_PIN_TRIES - (s1user.pinCounter + 1)),
           max 0 ((1000 - 1 - BACKOFF_START) +
             BACKOFF_START * 2 ^ (max 0 (s1user.pinCounter - (MAX_PIN_TRIES - 2))).toNat
             - 1000)) ∧
    { s1user with pinCounter := s1user.pinCounter + 1,
                  pinBlockDate := (1000 - 1 - BACKOFF_START) +
                    BACKOFF_START * 2 ^ (max 0 (s1user.pinCounter - (MAX_PIN_TRIES - 2))).toNat }
      ∈ (ReservePincheck s1db0 1 1000).1.users :=
  reservePincheck_allowed_update_and_lockout_scenario.1 s1db0 1 1000 s1user (by decide)

/-- A soft-deleted user row (`coredata IS NULL`), blocked until `t = 500`. -/
def c3user : UserRow :=
  { id := 1, username := "v", language := "", coredata := none,
    lastSeen := 0, pinCounter := 3, pinBlockDate := 500, deleteOn := some 900 }

/-- Database with only the soft-deleted user `c3user`. -/
def c3db : DBState :=
  { users := [c3user], emails := [], verificationTokens := [],
    loginTokens := [], logs := [] }

/-- A live user row that is blocked until `t = 500`. -/
def c3blockedUser : UserRow :=
  { id := 2, username := "w", language := "", coredata := some [0],
    lastSeen := 0, pinCounter := 3, pinBlockDate := 500, deleteOn := none }

/-- Database with only the blocked user `c3blockedUser`. -/
def c3blockedDb : DBState :=
  { users := [c3blockedUser], emails := [], verificationTokens := [],
    loginTokens := [], logs := [] }

/-- Counterexample to C3: on a soft-deleted user row (`coredata IS NULL`)
`ReservePincheck` does NOT return `(false, 0, max 0 (pin_block_date − now))`
without an error — the fallback SELECT also filters on
`coredata IS NOT NULL`, finds no row, and the call returns
`ErrUserNotFound`. -/
theorem reservePincheck_softdeleted_counterexample :
    (ReservePincheck c3db 1 100).2 = .error .userNotFound ∧
    (ReservePincheck c3db 1 100).2 ≠ .ok (false, 0, max 0 (c3user.pinBlockDate - 100)) := by
  decide

/-- C3 (amended): when the conditional UPDATE matches no row, a user that
still has coredata (i.e. exists and is merely blocked) gets
`(false, 0, max 0 (pin_block_date − now))` without an error, while a
soft-deleted user (no row with `coredata IS NOT NULL`) gets
`ErrUserNotFound`. -/
theorem reservePincheck_refusal_amended :
    (∀ (db : DBState) (uid now : Int) (u : UserRow),
        db.users.filter (pinCheckPred uid now) = [] →
        db.users.find? (fun r => r.id == uid && r.coredata.isSome) = some u →
        (ReservePincheck db uid now).2 = .ok (false, 0, max 0 (u.pinBlockDate - now))) ∧
    (∀ (db : DBState) (uid now : Int),
        db.users.filter (pinCheckPred uid now) = [] →
        db.users.find? (fun r => r.id == uid && r.coredata.isSome) = none →
        (ReservePincheck db uid now).2 = .error .userNotFound) := by
  constructor
  · intro db uid now u hfil hfind
    simp only [ReservePincheck, hfil, hfind, List.map_nil]
  · intro db uid now hfil hfind
    simp only [ReservePincheck, hfil, hfind, List.map_nil]

/-- Witness for the amended C3: a blocked user at `t = 100` (wait 400) and a
soft-deleted user (`ErrUserNotFound`). -/
theorem reservePincheck_refusal_amended_witness :
    (ReservePincheck c3blockedDb 2 100).2 =
      .ok (false, 0, max 0 (c3blockedUser.pinBlockDate - 100)) ∧
    (ReservePincheck c3db 1 100).2 = .error .userNotFound :=
  ⟨reservePincheck_refusal_amended.1 c3blockedDb 2 100 c3blockedUser (by decide) (by decide),
   reservePincheck_refusal_amended.2 c3db 1 100 (by decide) (by decide)⟩

/-- An anonymous console session holding a parked error (the state left by a
failed IRMA-login callback: `userID` nil, `pendingError` set). -/
def c2session : Sessiondata :=
  { token := "t", userID := none, pendingError := some ServerError.invalidProofs,
    pendingErrorMessage := "", expiry := 100 }

/-- The same session, but authenticated. -/
def c2authSession : Sessiondata := { c2session with userID := some 7 }

/-- C2 fails on the code: on a session with `pending_error` set and
`user_id` nil, `handleCheckSession`'s first guard answers `"expired"` and
leaves the pending error in place — it is neither returned nor cleared, in
contradiction with the source's own comment that errors matter more than
expired status (the `pendingError` branch is only reachable when `userID`
is set, as the second conjunct shows). -/
theorem handleCheckSession_pending_error_dropped :
    handleCheckSession (some c2session) = (some c2session, .msg "expired") ∧
    handleCheckSession (some c2authSession) =
      (some { c2authSession with pendingError := none, pendingErrorMessage := "" },
       .err ServerError.invalidProofs "") := by
  decide

/-- A live user row, before soft deletion. -/
def c4user : UserRow :=
  { id := 7, username := "alice", language := "en", coredata := some [0],
    lastSeen := 0, pinCounter := 0, pinBlockDate := 0, deleteOn := none }

/-- Database with only `c4user`. -/
def c4db : DBState :=
  { users := [c4user], emails := [], verificationTokens := [],
    loginTokens := [], logs := [] }

/-- The same database after `RemoveUser` (soft delete with a 7-day grace,
`now = 1000`). -/
def c4dbAfter : DBState := (RemoveUser c4db 7 1000 604800).1

/-- Counterexample to C4: after `RemoveUser` soft-deletes the account, the
keyshare store's `User(username)` does return user-not-found, but the
myirma store's `UserID(username)` has no `coredata IS NOT NULL` filter and
still resolves the soft-deleted row to its id. -/
theorem userID_resolves_softdeleted_counterexample :
    (RemoveUser c4db 7 1000 604800).2 = .ok () ∧
    User c4dbAfter "alice" = .error .userNotFound ∧
    UserID c4dbAfter "alice" = .ok 7 ∧
    UserID c4dbAfter "alice" ≠ .error .userNotFound := by
  decide

/-- C4 (amended): `RemoveUser` leaves every row of the removed id with
`coredata` NULL; the keyshare store's `User(username)` ignores rows with
NULL `coredata`, so it returns user-not-found once all rows of that
username are soft-deleted; the myirma store's `UserID(username)` instead
selects by username alone and returns the id of the first matching row,
soft-deleted or not. -/
theorem user_lookup_softdelete_amended :
    (∀ (db : DBState) (uid now delay : Int) (r : UserRow),
        r ∈ (RemoveUser db uid now delay).1.users → r.id = uid → r.coredata = none) ∧
    (∀ (db : DBState) (username : String),
        (∀ r ∈ db.users, r.username = username → r.coredata = none) →
        User db username = .error .userNotFound) ∧
    (∀ (db : DBState) (username : String) (r : UserRow),
        db.users.find? (fun x => x.username == username) = some r →
        UserID db username = .ok r.id) := by
  refine ⟨?_, ?_, ?_⟩
  · intro db uid now delay r hr hid
    simp only [RemoveUser] at hr
    obtain ⟨x, hx, hfx⟩ := List.mem_map.mp hr
    by_cases hp : (x.id == uid && x.coredata.isSome) = true
    · rw [if_pos hp] at hfx
      rw [← hfx]
    · rw [if_neg hp] at hfx
      subst hfx
      cases hc : x.coredata with
      | none => rfl
      | some v =>
          exact absurd (by rw [hid, hc]; simp) hp
  · intro db username hall
    have hfind : db.users.find?
        (fun r => r.username == username && r.coredata.isSome) = none := by
      rw [List.find?_eq_none]
      intro x hx hpx
      obtain ⟨h1, h2⟩ := Bool.and_eq_true_iff.mp hpx
      have := hall x hx (beq_iff_eq.mp h1)
      rw [this] at h2
      exact absurd h2 (by simp)
    unfold User
    rw [hfind]
  · intro db username r hfind
    unfold UserID
    rw [hfind]

/-- Witness for the amended C4 at the concrete soft-deleted database. -/
theorem user_lookup_softdelete_amended_witness :
    ({ c4user with coredata := none, deleteOn := some 605800 } : UserRow).coredata = none ∧
    User c4dbAfter "alice" = .error .userNotFound ∧
    UserID c4dbAfter "alice" = .ok c4user.id :=
  ⟨user_lookup_softdelete_amended.1 c4db 7 1000 604800
      { c4user with coredata := none, deleteOn := some 605800 } (by decide) (by decide),
   user_lookup_softdelete_amended.2.1 c4dbAfter "alice" (by decide),
   user_lookup_softdelete_amended.2.2 c4dbAfter "alice"
      { c4user with coredata := none, deleteOn := some 605800 } (by decide)⟩

/-- C5: every token is single-use.  A successful `VerifyEmailToken` deletes
the email-verification token row, so a second `VerifyEmailToken` with the
same token returns `TokenNotFound`; a successful `TryUserLoginToken`
deletes the login-token row (affected rows ≠ 1 on the delete is a hard
error), so repeating the same call fails with `UserNotFound`. -/
theorem token_single_use :
    (∀ (db : DBState) (token : String) (now now2 : Int) (db1 : DBState) (uid : Int),
        VerifyEmailToken db token now = (db1, .ok uid) →
        (VerifyEmailToken db1 token now2).2 = .error .tokenNotFound) ∧
    (∀ (db : DBState) (token username : String) (now now2 : Int)
        (db1 : DBState) (uid : Int),
        TryUserLoginToken db token username now = (db1, .ok uid) →
        (TryUserLoginToken db1 token username now2).2 = .error .userNotFound) := by
  constructor
  · intro db token now now2 db1 uid h
    unfold VerifyEmailToken at h
    cases hfind : db.verificationTokens.find? (verificationTokenPred token now) with
    | none =>
        rw [hfind] at h
        exact absurd (congrArg Prod.snd h) (by simp)
    | some r =>
        rw [hfind] at h
        dsimp only at h
        rcases haem : AddEmail db r.userId r.email with ⟨dbA, res⟩
        have hok : res = Except.ok () := by
          have hs := addEmail_snd db r.userId r.email
          rw [haem] at hs; exact hs
        subst hok
        rw [haem] at h
        dsimp only at h
        have htoks : dbA.verificationTokens = db.verificationTokens := by
          have hs := addEmail_verificationTokens db r.userId r.email
          rw [haem] at hs; exact hs
        have hvt : db1.verificationTokens =
            dbA.verificationTokens.filter (fun t => !(t.token == token)) :=
          (congrArg (fun p => Prod.fst p |>.verificationTokens) h).symm
        rw [htoks] at hvt
        have hnone : db1.verificationTokens.find? (verificationTokenPred token now2)
            = none := by
          rw [hvt, List.find?_eq_none]
          intro x hx hpx
          have hq := (List.mem_filter.mp hx).2
          have hteq : (x.token == token) = true :=
            (Bool.and_eq_true_iff.mp hpx).1
          rw [hteq] at hq
          exact absurd hq (by decide)
        unfold VerifyEmailToken
        rw [hnone]
  · intro db token username now now2 db1 uid h
    unfold TryUserLoginToken at h
    cases hc : loginCandidateIds db token username now with
    | nil =>
        rw [hc] at h
        exact absurd (congrArg Prod.snd h) (by simp)
    | cons cid rest =>
        rw [hc] at h
        dsimp only at h
        have hlt : db1.loginTokens =
            db.loginTokens.filter (fun t => !(t.token == token)) :=
          (congrArg (fun p => Prod.fst p |>.loginTokens) h).symm
        have hnone : db1.loginTokens.find?
            (fun t => t.token == token && decide (t.expiry ≥ now2)) = none := by
          rw [hlt, List.find?_eq_none]
          intro x hx hpx
          have hq := (List.mem_filter.mp hx).2
          have hteq : (x.token == token) = true :=
            (Bool.and_eq_true_iff.mp hpx).1
          rw [hteq] at hq
          exact absurd hq (by decide)
        have hcand : loginCandidateIds db1 token username now2 = [] := by
          unfold loginCandidateIds
          rw [hnone]
        unfold TryUserLoginToken
        rw [hcand]

/-- Database for the single-use witness: `alice` (id 1) with a pending
verification token `tok1`, `bob` (id 2) owning `shared@x` with a pending
login token `tok2`. -/
def c5db : DBState :=
  { users :=
      [{ id := 1, username := "alice", language := "", coredata := some [0],
         lastSeen := 0, pinCounter := 0, pinBlockDate := 0, deleteOn := none },
       { id := 2, username := "bob", language := "", coredata := some [0],
         lastSeen := 0, pinCounter := 0, pinBlockDate := 0, deleteOn := none }],
    emails := [{ userId := 2, email := "shared@x", deleteOn := none }],
    verificationTokens :=
      [{ token := "tok1", email := "a@x", userId := 1, expiry := 2000 }],
    loginTokens := [{ token := "tok2", email := "shared@x", expiry := 2000 }],
    logs := [] }

/-- Witness for C5: both redemptions succeed once on `c5db` and fail the
second time. -/
theorem token_single_use_witness :
    (VerifyEmailToken (VerifyEmailToken c5db "tok1" 100).1 "tok1" 100).2 =
      .error .tokenNotFound ∧
    (TryUserLoginToken (TryUserLoginToken c5db "tok2" "bob" 100).1 "tok2" "bob" 100).2 =
      .error .userNotFound :=
  ⟨token_single_use.1 c5db "tok1" 100 100 (VerifyEmailToken c5db "tok1" 100).1 1
      (by decide),
   token_single_use.2 c5db "tok2" "bob" 100 100 (TryUserLoginToken c5db "tok2" "bob" 100).1 2
      (by decide)⟩

/-- Every statement `AddEmail` issues runs on the plain connection, and is
one of the restore UPDATE and the fallback INSERT. -/
theorem addEmailOps_handles (db : DBState) (uid : Int) (email : String) :
    ∀ op ∈ addEmailOps db uid email,
      op.handle = TxHandle.nilConn ∧
      (op.stmt = SqlStmt.updateEmailsRestoreDeleteOn ∨
       op.stmt = SqlStmt.insertEmailRow) := by
  intro op hop
  unfold addEmailOps at hop
  split at hop <;>
    simp only [List.mem_cons, List.not_mem_nil, or_false] at hop
  · subst hop
    exact ⟨rfl, Or.inl rfl⟩
  · rcases hop with h | h
    · subst h
      exact ⟨rfl, Or.inl rfl⟩
    · subst h
      exact ⟨rfl, Or.inr rfl⟩

/-- Counterexample to C6: in a successful `VerifyEmailToken` run, the
`AddEmail` write is issued on the plain connection (`ExecCount(nil, ...)`),
not within the transaction handle passed to `VerifyEmailToken` — so it is
false that all `AddEmail` statements of the run use the passed
transaction. -/
theorem addEmail_runs_outside_tx_counterexample :
    SqlOp.mk SqlStmt.updateEmailsRestoreDeleteOn TxHandle.nilConn
      ∈ verifyEmailTokenOps c5db "tok1" 100 ∧
    ¬ (∀ op ∈ verifyEmailTokenOps c5db "tok1" 100,
        (op.stmt = SqlStmt.updateEmailsRestoreDeleteOn ∨
         op.stmt = SqlStmt.insertEmailRow) →
        op.handle = TxHandle.passedTx) := by
  decide

/-- C6 (amended): `VerifyEmailToken`'s token select and token delete run on
the transaction handle passed in, but the `AddEmail` write it performs runs
outside that transaction on the plain connection; `TryUserLoginToken`'s
select and delete both run on the passed transaction. -/
theorem transaction_scope_amended :
    (∀ (db : DBState) (token : String) (now : Int) (op : SqlOp),
        op ∈ verifyEmailTokenOps db token now →
        ((op.stmt = SqlStmt.selectVerificationToken ∨
          op.stmt = SqlStmt.deleteVerificationToken) →
            op.handle = TxHandle.passedTx) ∧
        ((op.stmt = SqlStmt.updateEmailsRestoreDeleteOn ∨
          op.stmt = SqlStmt.insertEmailRow) →
            op.handle = TxHandle.nilConn)) ∧
    (∀ (db : DBState) (token username : String) (now : Int) (op : SqlOp),
        op ∈ tryUserLoginTokenOps db token username now →
        op.handle = TxHandle.passedTx) := by
  constructor
  · intro db token now op hop
    unfold verifyEmailTokenOps at hop
    cases hfind : db.verificationTokens.find? (verificationTokenPred token now) with
    | none =>
        rw [hfind] at hop
        rcases List.mem_cons.mp hop with h | h
        · subst h; decide
        · exact absurd h (List.not_mem_nil op)
    | some r =>
        rw [hfind] at hop
        rcases List.mem_cons.mp hop with h | h
        · subst h; decide
        · rcases List.mem_append.mp h with h2 | h2
          · obtain ⟨hh, hs⟩ := addEmailOps_handles db r.userId r.email op h2
            constructor
            · intro hsel
              rcases hs with h3 | h3 <;> rcases hsel with h4 | h4 <;>
                (rw [h3] at h4; exact absurd h4 (by decide))
            · intro _
              exact hh
          · rcases List.mem_cons.mp h2 with h3 | h3
            · subst h3; decide
            · exact absurd h3 (List.not_mem_nil op)
  · intro db token username now op hop
    unfold tryUserLoginTokenOps at hop
    cases hc : loginCandidateIds db token username now with
    | nil =>
        rw [hc] at hop
        rcases List.mem_cons.mp hop with h | h
        · subst h; rfl
        · exact absurd h (List.not_mem_nil op)
    | cons cid rest =>
        rw [hc] at hop
        rcases List.mem_cons.mp hop with h | h
        · subst h; rfl
        · rcases List.mem_cons.mp h with h3 | h3
          · subst h3; rfl
          · exact absurd h3 (List.not_mem_nil op)

/-- Witness for the amended C6 at a concrete successful run of each
operation. -/
theorem transaction_scope_amended_witness :
    (SqlOp.mk SqlStmt.updateEmailsRestoreDeleteOn TxHandle.nilConn).handle
      = TxHandle.nilConn ∧
    (SqlOp.mk SqlStmt.deleteLoginToken TxHandle.passedTx).handle
      = TxHandle.passedTx :=
  ⟨(transaction_scope_amended.1 c5db "tok1" 100
      ⟨SqlStmt.updateEmailsRestoreDeleteOn, TxHandle.nilConn⟩ (by decide)).2
      (Or.inl rfl),
   transaction_scope_amended.2 c5db "tok2" "bob" 100
      ⟨SqlStmt.deleteLoginToken, TxHandle.passedTx⟩ (by decide)⟩

/-- Mapping a function that does not change a row's filter status preserves
the number of rows a filter selects. -/
theorem filter_length_map_preserve {α : Type} (p : α → Bool) (f : α → α)
    (hf : ∀ a, p (f a) = p a) (l : List α) :
    ((l.map f).filter p).length = (l.filter p).length := by
  induction l with
  | nil => rfl
  | cons x xs ih =>
      simp only [List.map_cons, List.filter_cons, hf]
      cases hx : p x <;> simp [ih]

/-- Core of the `AddEmail` restore branch: when exactly one row exists for
`(uid, email)` the UPDATE affects exactly it, `AddEmail` succeeds without
inserting, the row count stays 1, and the surviving row has
`delete_on = NULL`. -/
theorem addEmail_single_row_core (db : DBState) (uid : Int) (email : String)
    (hlen : (db.emails.filter (emailPred uid email)).length = 1) :
    (AddEmail db uid email).2 = .ok () ∧
    ((AddEmail db uid email).1.emails.filter (emailPred uid email)).length = 1 ∧
    ∀ r ∈ (AddEmail db uid email).1.emails.filter (emailPred uid email),
      r.deleteOn = none := by
  have hpres : ∀ a : EmailRow,
      emailPred uid email
          (if emailPred uid email a then { a with deleteOn := none } else a)
        = emailPred uid email a := by
    intro a
    split <;> rfl
  have hbeq : ((db.emails.filter (emailPred uid email)).length == 1) = true := by
    rw [hlen]; rfl
  have hA : AddEmail db uid email =
      ({ db with emails := db.emails.map fun r =>
          if emailPred uid email r then { r with deleteOn := none } else r },
       .ok ()) := by
    unfold AddEmail
    rw [if_pos hbeq]
  have hemails : (AddEmail db uid email).1.emails =
      db.emails.map fun r =>
        if emailPred uid email r then { r with deleteOn := none } else r := by
    rw [hA]
  refine ⟨by rw [hA], ?_, ?_⟩
  · rw [hemails, filter_length_map_preserve _ _ hpres]
    exact hlen
  · rw [hemails]
    intro r hr
    obtain ⟨hmem, hpr⟩ := List.mem_filter.mp hr
    obtain ⟨x, hx, hfx⟩ := List.mem_map.mp hmem
    by_cases hpx : emailPred uid email x = true
    · rw [if_pos hpx] at hfx
      rw [← hfx]
    · rw [if_neg hpx] at hfx
      subst hfx
      exact absurd hpr hpx

/-- C7: `AddEmail(u, e)` is idempotent and restoring.  With the binding
already present as exactly one row, `AddEmail` succeeds and leaves exactly
one row for `(u, e)`, with `delete_on` cleared; and after
`RemoveEmail(u, e, delay)` on an active single binding, `AddEmail` clears
`delete_on` on the existing row — the row count for `(u, e)` stays 1 and no
duplicate row is created. -/
theorem addEmail_idempotent_restoring :
    (∀ (db : DBState) (uid : Int) (email : String),
        (db.emails.filter (emailPred uid email)).length = 1 →
        (AddEmail db uid email).2 = .ok () ∧
        ((AddEmail db uid email).1.emails.filter (emailPred uid email)).length = 1 ∧
        ∀ r ∈ (AddEmail db uid email).1.emails.filter (emailPred uid email),
          r.deleteOn = none) ∧
    (∀ (db : DBState) (uid : Int) (email : String) (now delay : Int),
        (db.emails.filter (emailPred uid email)).length = 1 →
        (db.emails.filter
            (fun r => emailPred uid email r && r.deleteOn.isNone)).length = 1 →
        (RemoveEmail db uid email now delay).2 = .ok () ∧
        ((AddEmail (RemoveEmail db uid email now delay).1 uid email).1.emails.filter
            (emailPred uid email)).length = 1 ∧
        ∀ r ∈ (AddEmail (RemoveEmail db uid email now delay).1 uid email).1.emails.filter
            (emailPred uid email),
          r.deleteOn = none) := by
  constructor
  · intro db uid email h
    exact addEmail_single_row_core db uid email h
  · intro db uid email now delay h1 h2
    have hbeq : ((db.emails.filter
        (fun r => emailPred uid email r && r.deleteOn.isNone)).length == 1) = true := by
      rw [h2]; rfl
    have hR : RemoveEmail db uid email now delay =
        ({ db with emails := db.emails.map fun r =>
            if emailPred uid email r && r.deleteOn.isNone
            then { r with deleteOn := some (now + delay) } else r },
         .ok ()) := by
      simp only [RemoveEmail]
      rw [if_pos hbeq]
    have hre : (RemoveEmail db uid email now delay).1.emails =
        db.emails.map fun r =>
          if emailPred uid email r && r.deleteOn.isNone
          then { r with deleteOn := some (now + delay) } else r := by
      rw [hR]
    have hpres2 : ∀ a : EmailRow,
        emailPred uid email
            (if emailPred uid email a && a.deleteOn.isNone
             then { a with deleteOn := some (now + delay) } else a)
          = emailPred uid email a := by
      intro a
      split <;> rfl
    have hlen1 : ((RemoveEmail db uid email now delay).1.emails.filter
        (emailPred uid email)).length = 1 := by
      rw [hre, filter_length_map_preserve _ _ hpres2]
      exact h1
    obtain ⟨_, hb, hc⟩ :=
      addEmail_single_row_core (RemoveEmail db uid email now delay).1 uid email hlen1
    exact ⟨by rw [hR], hb, hc⟩

/-- A database holding a single active email binding `(3, e@x)`. -/
def c7db : DBState :=
  { users := [], emails := [{ userId := 3, email := "e@x", deleteOn := none }],
    verificationTokens := [], loginTokens := [], logs := [] }

/-- Witness for C7: on the concrete single-binding database, re-adding and
remove-then-re-add both leave exactly one `(3, e@x)` row. -/
theorem addEmail_idempotent_restoring_witness :
    ((AddEmail c7db 3 "e@x").1.emails.filter (emailPred 3 "e@x")).length = 1 ∧
    ((AddEmail (RemoveEmail c7db 3 "e@x" 100 86400).1 3 "e@x").1.emails.filter
        (emailPred 3 "e@x")).length = 1 :=
  ⟨(addEmail_idempotent_restoring.1 c7db 3 "e@x" (by decide)).2.1,
   (addEmail_idempotent_restoring.2 c7db 3 "e@x" 100 86400
      (by decide) (by decide)).2.1⟩

/-- C8: once the token row has been resolved and the email binding made,
`VerifyEmailToken` returns the resolved user id with success even when the
post-success delete of the token affects a row count ≠ 1 (the problem is
only logged, because the user-visible effect already completed). -/
theorem verifyEmailToken_delete_mismatch_still_success :
    ∀ (db : DBState) (token : String) (now : Int) (r : VerificationTokenRow),
      db.verificationTokens.find? (verificationTokenPred token now) = some r →
      (db.verificationTokens.filter (fun t => t.token == token)).length ≠ 1 →
      (VerifyEmailToken db token now).2 = .ok r.userId := by
  intro db token now r hfind _
  unfold VerifyEmailToken
  rw [hfind]
  dsimp only
  rcases haem : AddEmail db r.userId r.email with ⟨dbA, res⟩
  have hok : res = Except.ok () := by
    have hs := addEmail_snd db r.userId r.email
    rw [haem] at hs; exact hs
  subst hok
  rfl

/-- A database where the token `tok` occurs twice, so its delete affects 2
rows rather than 1. -/
def c8db : DBState :=
  { users := [], emails := [],
    verificationTokens :=
      [{ token := "tok", email := "a@x", userId := 9, expiry := 500 },
       { token := "tok", email := "a@x", userId := 9, expiry := 500 }],
    loginTokens := [], logs := [] }

/-- Witness for C8: redemption on the duplicate-token database still
returns the user id. -/
theorem verifyEmailToken_delete_mismatch_witness :
    (VerifyEmailToken c8db "tok" 100).2 = .ok (9 : Int) :=
  verifyEmailToken_delete_mismatch_still_success c8db "tok" 100
    { token := "tok", email := "a@x", userId := 9, expiry := 500 }
    (by decide) (by decide)

/-- C9: the IRMA-login disclosure callback.  An expired session (the store
returned none) is silently dropped; an incomplete result (status ≠ Done) is
ignored; for a completed disclosure, an invalid proof parks
`ErrorInvalidProofs`, an unknown username parks `ErrorUserNotRegistered`, a
database error parks `ErrorInternal` carrying the error message — three
distinct error kinds — and a valid disclosure of a known username sets
`session.user_id` to the resolved id and updates `last_seen` of that user
to the callback time. -/
theorem processLoginResult_branches :
    (∀ (db : DBState) (result : SessionResult) (lookup : Except KeyshareErr Int)
        (now : Int),
        processLoginIrmaSessionResult db none result lookup now = (db, none)) ∧
    (∀ (db : DBState) (s : Sessiondata) (result : SessionResult)
        (lookup : Except KeyshareErr Int) (now : Int),
        result.status ≠ SessionStatus.done →
        processLoginIrmaSessionResult db (some s) result lookup now = (db, some s)) ∧
    (∀ (db : DBState) (s : Sessiondata) (result : SessionResult)
        (lookup : Except KeyshareErr Int) (now : Int),
        result.status = SessionStatus.done →
        result.proofStatus ≠ ProofStatus.valid →
        processLoginIrmaSessionResult db (some s) result lookup now =
          (db, some { s with
                      pendingError := some ServerError.invalidProofs,
                      pendingErrorMessage := "" })) ∧
    (∀ (db : DBState) (s : Sessiondata) (result : SessionResult) (now : Int),
        result.status = SessionStatus.done →
        result.proofStatus = ProofStatus.valid →
        processLoginIrmaSessionResult db (some s) result (.error .userNotFound) now =
          (db, some { s with
                      pendingError := some ServerError.userNotRegistered,
                      pendingErrorMessage := "" })) ∧
    (∀ (db : DBState) (s : Sessiondata) (result : SessionResult) (now : Int)
        (msg : String),
        result.status = SessionStatus.done →
        result.proofStatus = ProofStatus.valid →
        processLoginIrmaSessionResult db (some s) result
            (.error (.dbError msg)) now =
          (db, some { s with
                      pendingError := some ServerError.internal,
                      pendingErrorMessage := msg })) ∧
    (∀ (db : DBState) (s : Sessiondata) (result : SessionResult) (now : Int)
        (id : Int),
        result.status = SessionStatus.done →
        result.proofStatus = ProofStatus.valid →
        processLoginIrmaSessionResult db (some s) result (.ok id) now =
          ((SetSeen db id now).1, some { s with userID := some id }) ∧
        ∀ r ∈ (processLoginIrmaSessionResult db (some s) result (.ok id) now).1.users,
          r.id = id → r.lastSeen = now) ∧
    (ServerError.invalidProofs ≠ ServerError.userNotRegistered ∧
     ServerError.invalidProofs ≠ ServerError.internal ∧
     ServerError.userNotRegistered ≠ ServerError.internal) := by
  refine ⟨?_, ?_, ?_, ?_, ?_, ?_, by decide⟩
  · intro db result lookup now
    rfl
  · intro db s result lookup now h
    simp only [processLoginIrmaSessionResult]
    rw [if_pos h]
  · intro db s result lookup now h1 h2
    simp only [processLoginIrmaSessionResult]
    rw [if_neg (not_not_intro h1), if_pos h2]
  · intro db s result now h1 h2
    simp only [processLoginIrmaSessionResult]
    rw [if_neg (not_not_intro h1), if_neg (not_not_intro h2)]
  · intro db s result now msg h1 h2
    simp only [processLoginIrmaSessionResult]
    rw [if_neg (not_not_intro h1), if_neg (not_not_intro h2)]
    rfl
  · intro db s result now id h1 h2
    have heq : processLoginIrmaSessionResult db (some s) result (.ok id) now =
        ((SetSeen db id now).1, some { s with userID := some id }) := by
      simp only [processLoginIrmaSessionResult]
      rw [if_neg (not_not_intro h1), if_neg (not_not_intro h2)]
    refine ⟨heq, ?_⟩
    intro r hr hid
    rw [heq] at hr
    have husers : (SetSeen db id now).1.users = db.users.map fun u =>
        if u.id == id then { u with lastSeen := now } else u := by
      simp only [SetSeen]
    rw [husers] at hr
    obtain ⟨x, hx, hfx⟩ := List.mem_map.mp hr
    by_cases hpx : (x.id == id) = true
    · rw [if_pos hpx] at hfx
      rw [← hfx]
    · rw [if_neg hpx] at hfx
      subst hfx
      exact absurd (beq_iff_eq.mpr hid) hpx

/-- An anonymous console session for the callback witness. -/
def c9session : Sessiondata :=
  { token := "s", userID := none, pendingError := none,
    pendingErrorMessage := "", expiry := 100 }

/-- Witness for C9: on the concrete database (`alice`, id 7), an invalid
proof parks the invalid-proofs error, and a valid disclosure of `alice`
(whose `UserID` lookup yields 7) logs the session in and touches
`last_seen`. -/
theorem processLoginResult_branches_witness :
    UserID c4db "alice" = .ok 7 ∧
    processLoginIrmaSessionResult c4db (some c9session)
        { status := SessionStatus.done, proofStatus := ProofStatus.invalid,
          disclosed := [] } (.ok 7) 50 =
      (c4db, some { c9session with
                    pendingError := some ServerError.invalidProofs,
                    pendingErrorMessage := "" }) ∧
    processLoginIrmaSessionResult c4db (some c9session)
        { status := SessionStatus.done, proofStatus := ProofStatus.valid,
          disclosed := [["alice"]] } (.ok 7) 50 =
      ((SetSeen c4db 7 50).1, some { c9session with userID := some 7 }) :=
  ⟨by decide,
   processLoginResult_branches.2.2.1 c4db c9session _ (.ok 7) 50 rfl (by decide),
   (processLoginResult_branches.2.2.2.2.2.1 c4db c9session _ 50 7 rfl rfl).1⟩

/-- C10: `GET /user` and `GET /user/logs/{offset}` never serialise a null
list.  Every successful `handleUserInfo` body has a present (non-null)
email list; a nil email slice from the store is replaced by the empty
list; `handleGetLogs` always yields a present list; and an empty log
window is replaced by the empty list. -/
theorem handlers_never_null_list :
    (∀ (db : DBState) (uid now : Int) (info : UserInfoResult),
        handleUserInfo db uid now = .ok info → info.emails.isSome = true) ∧
    (∀ (db : DBState) (uid now : Int) (info : UserInfoResult),
        UserInformation db uid now = .ok info → info.emails = none →
        handleUserInfo db uid now = .ok { info with emails := some [] }) ∧
    (∀ (db : DBState) (uid : Int) (offset : Nat),
        (handleGetLogs db uid offset).isSome = true) ∧
    (∀ (db : DBState) (uid : Int) (offset : Nat),
        Logs db uid offset 11 = none → handleGetLogs db uid offset = some []) := by
  refine ⟨?_, ?_, ?_, ?_⟩
  · intro db uid now info h
    unfold handleUserInfo at h
    cases hui : UserInformation db uid now with
    | error e =>
        rw [hui] at h
        exact absurd h (by simp)
    | ok info0 =>
        rw [hui] at h
        dsimp only at h
        cases hem : info0.emails with
        | none =>
            rw [hem] at h
            dsimp only at h
            injection h with h2
            subst h2
            rfl
        | some l =>
            rw [hem] at h
            dsimp only at h
            injection h with h2
            subst h2
            rw [hem]
            rfl
  · intro db uid now info hui hem
    unfold handleUserInfo
    rw [hui]
    dsimp only
    rw [hem]
  · intro db uid offset
    unfold handleGetLogs
    cases hl : Logs db uid offset 11 <;> rfl
  · intro db uid offset h
    unfold handleGetLogs
    rw [h]

/-- Witness for C10: `alice` (id 7) has no email rows and no log rows, and
both handler bodies carry the empty list rather than null. -/
theorem handlers_never_null_list_witness :
    handleUserInfo c4db 7 0 =
      .ok { username := "alice", language := "en",
            deleteInProgress := false, emails := some [] } ∧
    handleGetLogs c4db 7 0 = some [] :=
  ⟨handlers_never_null_list.2.1 c4db 7 0
      { username := "alice", language := "en",
        deleteInProgress := false, emails := none } (by decide) rfl,
   handlers_never_null_list.2.2.2 c4db 7 0 (by decide)⟩
